import Mathlib

/-!
Verification of the drone-radio-surveillance repository (Go) against its
natural-language specification.

The Go code is shallowly embedded in Lean 4:

* `float64` values (frequencies, bin widths, powers) are embedded as exact
  rationals `ℚ`.  Every concrete scenario below uses values on which binary64
  arithmetic is exact (integers below 2^53 and exact halves), so the rational
  semantics coincides with the float semantics there.
* `time.Time` values are embedded as `Int` microseconds since epoch
  (`time.Microsecond` becomes `+ 1`, `Before` becomes `<`).
* Go `int(x)` conversion from a float truncates toward zero; `goTrunc` mirrors
  this on `ℚ`.
* Stateful code (the linked-list buffer, the SQL transaction, the streaming
  reader) becomes explicit state passing; fallible code returns `Option` or a
  product with an error component.
-/

attribute [local semireducible] Rat.add Rat.sub Rat.mul Rat.inv

set_option maxRecDepth 8000

set_option maxHeartbeats 1600000

/-- Truncation of a rational toward zero, mirroring Go conversion `int(x)`
applied to an exactly-computed binary64 value. -/
def goTrunc (q : ℚ) : Int := if 0 ≤ q then ⌊q⌋ else -⌊-q⌋

/-- The value of `math.MaxFloat64`, which initializes `SweepsBuffer.baseFreq`
before any sweep is observed. -/
def maxFloat64 : ℚ := ((2 ^ 1024 - 2 ^ 971 : ℕ) : ℚ)

namespace Sdr

/-- PowerReading from `internal/sdr` (unnamed model file): one frequency power
reading with explicit validity. -/
structure PowerReading where
  frequency : ℚ
  power : ℚ
  isValid : Bool
deriving DecidableEq

/-- SweepResult from `internal/sdr`: one parsed sweep chunk.  The Go struct
fields Timestamp, StartFrequency, EndFrequency, BinWidth, NumSamples,
Readings, Device, DeviceID are kept; the timestamp is in microseconds. -/
structure SweepResult where
  timestamp : Int
  startFrequency : ℚ
  endFrequency : ℚ
  binWidth : ℚ
  numSamples : Int
  readings : List PowerReading
  device : String
  deviceID : String
deriving DecidableEq

/-- CenterFrequency of a sweep chunk: start frequency plus half the bin
width (`SweepResult.CenterFrequency` in the source). -/
def SweepResult.CenterFrequency (s : SweepResult) : ℚ :=
  s.startFrequency + s.binWidth / 2

/-- minSpectrumChunksThreshold from `internal/sdr/hackrf/device.go`: minimum
number of chunks in a complete spectrum required to reliably detect
frequency rollover. -/
def minSpectrumChunksThreshold : Int := 5

/-- SweepsBuffer state from `internal/sdr/hackrf/device.go` (the
dynamic-discovery variant adopted by the spec): discovered band edges, the
observed bin width, capacity parameters, and the ordered list of buffered
sweeps (front of the list is the front of the Go `container/list`). The
mutex is concurrency-only and has no sequential content. -/
structure SweepsBuffer where
  baseFreq : ℚ
  maxFreq : ℚ
  binWidth : ℚ
  capacity : Int
  flushCount : Int
  items : List SweepResult
deriving DecidableEq

/-- NewFrequencyBuffer from `device.go`: validates the capacity parameters and
returns a buffer with `baseFreq = math.MaxFloat64`, `maxFreq = 0`,
`binWidth = 0` and an empty list. -/
def NewFrequencyBuffer (capacity flushCount : Int) : Option SweepsBuffer :=
  if capacity ≤ 0 ∨ flushCount ≤ 0 ∨ flushCount > capacity then
    none
  else
    some { baseFreq := maxFloat64, maxFreq := 0, binWidth := 0,
           capacity := capacity, flushCount := flushCount, items := [] }

/-- updateFrequencyRange from `device.go`: lower `baseFreq` and raise
`maxFreq` toward the observed sweep edges, and take the sweep bin width. -/
def SweepsBuffer.updateFrequencyRange (sb : SweepsBuffer) (s : SweepResult) :
    SweepsBuffer :=
  { sb with
    baseFreq := if s.startFrequency < sb.baseFreq then s.startFrequency else sb.baseFreq
    maxFreq := if s.endFrequency > sb.maxFreq then s.endFrequency else sb.maxFreq
    binWidth := s.binWidth }

/-- getSweepOrder from `device.go`: the chunk position index
`int((center − baseFreq) / binWidth)`.  The Go nil-receiver guard is elided:
the buffer never stores nil sweeps (`Insert` rejects them first). -/
def SweepsBuffer.getSweepOrder (sb : SweepsBuffer) (s : SweepResult) : Int :=
  goTrunc ((s.CenterFrequency - sb.baseFreq) / sb.binWidth)

/-- Number of chunks the discovered band holds:
`int((maxFreq − baseFreq) / binWidth)` as computed inside
`compareSweepOrder`. -/
def SweepsBuffer.bandChunks (sb : SweepsBuffer) : Int :=
  goTrunc ((sb.maxFreq - sb.baseFreq) / sb.binWidth)

/-- rolloverThreshold as computed inside `compareSweepOrder`:
`int((maxFreq − baseFreq) / binWidth / 2)`. -/
def SweepsBuffer.rolloverThreshold (sb : SweepsBuffer) : Int :=
  goTrunc ((sb.maxFreq - sb.baseFreq) / sb.binWidth / 2)

/-- compareSweepOrder from `device.go`: pairwise ordering of two (non-nil)
sweep chunks.  `ar`/`br` start out false and are only assigned when the band
holds strictly more than `minSpectrumChunksThreshold` chunks; the four-way
switch then decides the order, with `ac ≥ bc` sending `a` after `b`. -/
def SweepsBuffer.compareSweepOrder (sb : SweepsBuffer) (a b : SweepResult) : Int :=
  let ac := sb.getSweepOrder a
  let bc := sb.getSweepOrder b
  let enabled : Bool := decide (sb.bandChunks > minSpectrumChunksThreshold)
  let ar : Bool := enabled && decide (ac < sb.rolloverThreshold)
  let br : Bool := enabled && decide (bc < sb.rolloverThreshold)
  if ar && br then (if ac ≥ bc then 1 else -1)
  else if ar then 1
  else if br then -1
  else (if ac ≥ bc then 1 else -1)

/-- Timestamp adjustment inside `Insert`: when the sweep being inserted after
element `p` has an earlier timestamp than `p`, it is rewritten to
`p.Timestamp + 1 µs`. -/
def nudge (s p : SweepResult) : SweepResult :=
  if s.timestamp < p.timestamp then { s with timestamp := p.timestamp + 1 } else s

/-- The insertion scan of `Insert`: walk the list; insert the sweep after the
current element when the list ends there or when the next element compares
as coming after the sweep.  The empty-list case is unreachable (the caller
handles it). -/
def SweepsBuffer.insertLoop (sb : SweepsBuffer) (s : SweepResult) :
    List SweepResult → List SweepResult
  | [] => []
  | [e] => [e, nudge s e]
  | e :: next :: rest =>
    if sb.compareSweepOrder next s = 1 then
      e :: nudge s e :: next :: rest
    else
      e :: sb.insertLoop s (next :: rest)

/-- The body of `Insert` for a non-nil sweep: update the frequency range,
then push at the front when the list is empty or when the sweep compares
before the head, otherwise run the insertion scan. -/
def SweepsBuffer.insertSome (sb : SweepsBuffer) (s : SweepResult) : SweepsBuffer :=
  let sb := sb.updateFrequencyRange s
  match sb.items with
  | [] => { sb with items := [s] }
  | front :: rest =>
    if sb.compareSweepOrder s front = -1 then
      { sb with items := s :: front :: rest }
    else
      { sb with items := sb.insertLoop s (front :: rest) }

/-- Insert from `device.go`: a nil sweep is rejected with an error
(returned here as `none`); otherwise the sweep is stored. -/
def SweepsBuffer.Insert (sb : SweepsBuffer) : Option SweepResult → Option SweepsBuffer
  | none => none
  | some s => some (sb.insertSome s)

/-- Size from `device.go`. -/
def SweepsBuffer.Size (sb : SweepsBuffer) : Int := sb.items.length

/-- IsFull from `device.go`: `list.Len() >= capacity`. -/
def SweepsBuffer.IsFull (sb : SweepsBuffer) : Bool :=
  decide (sb.capacity ≤ (sb.items.length : Int))

/-- Flush from `device.go`: remove and return the first
`min(flushCount + overflow, size)` elements, where overflow is the excess
over capacity.  An empty buffer yields the empty list (Go returns nil). -/
def SweepsBuffer.Flush (sb : SweepsBuffer) : List SweepResult × SweepsBuffer :=
  if sb.items.length = 0 then ([], sb)
  else
    let len : Int := sb.items.length
    let count := sb.flushCount + (if len > sb.capacity then len - sb.capacity else 0)
    let count := min count len
    (sb.items.take count.toNat, { sb with items := sb.items.drop count.toNat })

/-- Drain from `device.go`: remove and return all elements in order. -/
def SweepsBuffer.Drain (sb : SweepsBuffer) : List SweepResult × SweepsBuffer :=
  (sb.items, { sb with items := [] })

/-- A sweep chunk as built in TestFrequencyBuffer_Ordering: bin width 100 kHz,
a 100 kHz span, no readings. -/
def mkChunk (start : ℚ) (ts : Int) : SweepResult :=
  { timestamp := ts, startFrequency := start, endFrequency := start + 100000,
    binWidth := 100000, numSamples := 0, readings := [], device := "HackRF",
    deviceID := "0" }

/-- The seven inserts of the C1 scenario (capacity 10, flushCount 5), with the
test timestamps base, base, base, +1s, +2s, +3s, +3s. -/
def c1FinalBuffer : Option SweepsBuffer :=
  ((((((((NewFrequencyBuffer 10 5).bind
    (·.Insert (some (mkChunk 5000700000 0)))).bind
    (·.Insert (some (mkChunk 5000600000 0)))).bind
    (·.Insert (some (mkChunk 5000800000 0)))).bind
    (·.Insert (some (mkChunk 1000000 1000000)))).bind
    (·.Insert (some (mkChunk 5000900000 2000000)))).bind
    (·.Insert (some (mkChunk 1300000 3000000)))).bind
    (·.Insert (some (mkChunk 1200000 3000000))))

/-- Claim C1: inserting chunks with startFrequency order
[5.0007e9, 5.0006e9, 5.0008e9, 1.0e6, 5.0009e9, 1.3e6, 1.2e6] (all
binWidth 1e5, span 1e5) into the dynamic-discovery buffer (capacity 10,
flushCount 5) and draining yields all seven chunks with startFrequency
order [5.0006e9, 5.0007e9, 5.0008e9, 5.0009e9, 1.0e6, 1.2e6, 1.3e6]. -/
theorem c1_buffer_ordering :
    c1FinalBuffer.map (fun sb => (sb.Drain.1.map SweepResult.startFrequency, sb.Size))
      = some ([5000600000, 5000700000, 5000800000, 5000900000,
               1000000, 1200000, 1300000], 7) := by
  decide

/-- The pairwise ordering rule of spec section 4.4 with the low-half/high-half
rollover distinction always in force (no minimum-chunks guard); written from
the spec table to compare against `compareSweepOrder`. -/
def compareRolloverRule (sb : SweepsBuffer) (a b : SweepResult) : Int :=
  let ac := sb.getSweepOrder a
  let bc := sb.getSweepOrder b
  let ar : Bool := decide (ac < sb.rolloverThreshold)
  let br : Bool := decide (bc < sb.rolloverThreshold)
  if ar && br then (if ac ≥ bc then 1 else -1)
  else if ar then 1
  else if br then -1
  else (if ac ≥ bc then 1 else -1)

/-- The fallback ordering of spec section 4.4: strict ascending order with
equal orders sent after (FIFO for ties). -/
def simpleCompare (sb : SweepsBuffer) (a b : SweepResult) : Int :=
  if sb.getSweepOrder a ≥ sb.getSweepOrder b then 1 else -1

/-- A buffer state whose discovered band holds exactly 5 chunks
(1.0 MHz to 1.5 MHz at 100 kHz bins). -/
def c4State : SweepsBuffer :=
  { baseFreq := 1000000, maxFreq := 1500000, binWidth := 100000,
    capacity := 10, flushCount := 5, items := [] }

/-- Claim C4 counterexample: with exactly 5 chunks the claim says rollover
detection is in effect, but `compareSweepOrder` falls back to simple
ordering: for a low-half chunk `a` and a high-half chunk `b` it answers -1
(a before b) where the rollover rule answers 1 (a after b). -/
theorem c4_threshold_counterexample :
    c4State.bandChunks = 5 ∧
    c4State.compareSweepOrder (mkChunk 1000000 0) (mkChunk 1400000 0) = -1 ∧
    compareRolloverRule c4State (mkChunk 1000000 0) (mkChunk 1400000 0) = 1 := by
  decide

/-- Claim C4 (amended): the rollover rule is applied if and only if the
discovered band holds strictly more than 5 chunks
(`int((maxFreq − baseFreq)/binWidth) > minSpectrumChunksThreshold`); at 5
or fewer chunks every pair is ordered by the simple ascending-order rule
with ties sent after (FIFO). -/
theorem c4_threshold_amended (sb : SweepsBuffer) (a b : SweepResult) :
    sb.compareSweepOrder a b =
      if minSpectrumChunksThreshold < sb.bandChunks then
        compareRolloverRule sb a b
      else
        simpleCompare sb a b := by
  unfold SweepsBuffer.compareSweepOrder compareRolloverRule simpleCompare
  by_cases h : minSpectrumChunksThreshold < sb.bandChunks
  · simp [h, gt_iff_lt]
  · simp [h, gt_iff_lt]


/-- A sweep with its timestamp erased; conservation of buffer contents is
stated modulo the documented timestamp nudge. -/
def eraseTs (s : SweepResult) : SweepResult := { s with timestamp := 0 }

/-- Timestamp field of a nudged sweep: rewritten to the predecessor timestamp
plus one microsecond exactly when it was earlier. -/
theorem nudge_timestamp (s p : SweepResult) :
    (nudge s p).timestamp =
      if s.timestamp < p.timestamp then p.timestamp + 1 else s.timestamp := by
  unfold nudge; split <;> rfl

/-- A nudged sweep never carries a timestamp earlier than its predecessor. -/
theorem le_nudge_timestamp (s p : SweepResult) :
    p.timestamp ≤ (nudge s p).timestamp := by
  rw [nudge_timestamp]; split <;> omega

/-- Nudging changes only the timestamp. -/
theorem eraseTs_nudge (s p : SweepResult) : eraseTs (nudge s p) = eraseTs s := by
  unfold nudge eraseTs; split <;> rfl

/-- Structure of the insertion scan: it splits the list at some element `p`
and inserts the (possibly nudged) sweep right after `p`. -/
theorem insertLoop_decomp (sb : SweepsBuffer) (s : SweepResult) :
    ∀ (rest : List SweepResult) (front : SweepResult),
      ∃ l₁ p l₂,
        front :: rest = l₁ ++ p :: l₂ ∧
        sb.insertLoop s (front :: rest) = l₁ ++ p :: nudge s p :: l₂ := by
  intro rest
  induction rest with
  | nil =>
    intro front
    exact ⟨[], front, [], rfl, rfl⟩
  | cons next rest ih =>
    intro front
    by_cases h : sb.compareSweepOrder next s = 1
    · exact ⟨[], front, next :: rest, rfl, by simp [SweepsBuffer.insertLoop, h]⟩
    · obtain ⟨l₁, p, l₂, hdec, hloop⟩ := ih next
      exact ⟨front :: l₁, p, l₂, by rw [hdec]; rfl,
        by simp [SweepsBuffer.insertLoop, h, hloop]⟩

/-- Claim C5 counterexample: three chunks of one ascending sweep
(1.0, 1.1, 1.2 MHz) inserted in the order 1.0 MHz (t=0), 1.2 MHz (t=0),
1.1 MHz (t=20 µs) drain in frequency order with timestamps [0, 20, 0],
which is not weakly monotone in time: the later element kept its earlier
timestamp, so the claimed consequence of the nudge rule fails. -/
theorem c5_monotone_counterexample :
    (((((NewFrequencyBuffer 10 5).bind
        (·.Insert (some (mkChunk 1000000 0)))).bind
        (·.Insert (some (mkChunk 1200000 0)))).bind
        (·.Insert (some (mkChunk 1100000 20)))).map
      (fun sb => (sb.Drain.1.map SweepResult.startFrequency,
                  sb.Drain.1.map SweepResult.timestamp))
      = some ([1000000, 1100000, 1200000], [0, 20, 0]))
    ∧ ¬ List.Chain' (· ≤ ·) [(0 : Int), 20, 0] := by
  refine ⟨by decide, fun hc => ?_⟩
  rcases List.chain'_cons.mp hc with ⟨-, hc2⟩
  rcases List.chain'_cons.mp hc2 with ⟨h2, -⟩
  omega

/-- Claim C5 (amended): whenever the insertion scan places sweep `s`
immediately after an existing element `p`, the stored copy of `s` has
timestamp `p.timestamp + 1 µs` if `s.timestamp < p.timestamp` and
`s.timestamp` otherwise; the stored copy therefore never precedes its
insertion-time predecessor.  Weak monotonicity of the whole emitted
sequence does not follow (see the counterexample): insertions at the front
or before a later element adjust no timestamps. -/
theorem c5_insert_nudge_amended (sb : SweepsBuffer) (s front : SweepResult)
    (rest : List SweepResult) :
    ∃ l₁ p l₂,
      front :: rest = l₁ ++ p :: l₂ ∧
      sb.insertLoop s (front :: rest) = l₁ ++ p :: nudge s p :: l₂ ∧
      (nudge s p).timestamp
        = (if s.timestamp < p.timestamp then p.timestamp + 1 else s.timestamp) ∧
      p.timestamp ≤ (nudge s p).timestamp := by
  obtain ⟨l₁, p, l₂, hdec, hloop⟩ := insertLoop_decomp sb s rest front
  exact ⟨l₁, p, l₂, hdec, hloop, nudge_timestamp s p, le_nudge_timestamp s p⟩

/-- The list stored after an insert is a permutation of the old list with one
new element that differs from the inserted sweep at most in its
timestamp. -/
theorem insertSome_perm (sb : SweepsBuffer) (s : SweepResult) :
    ∃ s₂, (sb.insertSome s).items.Perm (s₂ :: sb.items) ∧ eraseTs s₂ = eraseTs s := by
  have hsame : (sb.updateFrequencyRange s).items = sb.items := rfl
  unfold SweepsBuffer.insertSome
  cases hitems : (sb.updateFrequencyRange s).items with
  | nil =>
    have hitems₂ : sb.items = [] := by rw [← hsame, hitems]
    refine ⟨s, ?_, rfl⟩
    simp only [hitems]
    show List.Perm [s] (s :: sb.items)
    rw [hitems₂]
  | cons front rest =>
    have hitems₂ : sb.items = front :: rest := by rw [← hsame, hitems]
    by_cases h : (sb.updateFrequencyRange s).compareSweepOrder s front = -1
    · refine ⟨s, ?_, rfl⟩
      simp only [hitems]
      rw [if_pos h]
      show List.Perm (s :: front :: rest) (s :: sb.items)
      rw [hitems₂]
    · obtain ⟨l₁, p, l₂, hdec, hloop⟩ :=
        insertLoop_decomp (sb.updateFrequencyRange s) s rest front
      refine ⟨nudge s p, ?_, eraseTs_nudge s p⟩
      simp only [hitems]
      rw [if_neg h]
      show List.Perm ((sb.updateFrequencyRange s).insertLoop s (front :: rest))
        (nudge s p :: sb.items)
      rw [hloop, hitems₂, hdec]
      have e₁ : l₁ ++ p :: nudge s p :: l₂ = (l₁ ++ [p]) ++ nudge s p :: l₂ := by simp
      have e₂ : nudge s p :: (l₁ ++ p :: l₂) = nudge s p :: ((l₁ ++ [p]) ++ l₂) := by simp
      rw [e₁, e₂]
      exact List.perm_middle

/-- Inserting always adds exactly one element to the stored list. -/
theorem insertSome_length (sb : SweepsBuffer) (s : SweepResult) :
    (sb.insertSome s).items.length = sb.items.length + 1 := by
  obtain ⟨s₂, hperm, -⟩ := insertSome_perm sb s
  simpa using hperm.length_eq

/-- Flush returns an initial segment and keeps the rest: returned and kept
elements concatenate back to the old contents. -/
theorem flush_parts (sb : SweepsBuffer) :
    (sb.Flush).1 ++ (sb.Flush).2.items = sb.items := by
  unfold SweepsBuffer.Flush
  split
  · rfl
  · simp

/-- One buffer operation of the C10 operation sequences. -/
inductive BufOp where
  | insertOp : Option SweepResult → BufOp
  | flushOp : BufOp
  | drainOp : BufOp

/-- Run a sequence of operations on a buffer, collecting everything emitted
by Flush and Drain calls. -/
def runOps (sb : SweepsBuffer) : List BufOp → SweepsBuffer × List SweepResult
  | [] => (sb, [])
  | BufOp.insertOp none :: rest => runOps sb rest
  | BufOp.insertOp (some s) :: rest => runOps (sb.insertSome s) rest
  | BufOp.flushOp :: rest =>
    let out := sb.Flush
    let r := runOps out.2 rest
    (r.1, out.1 ++ r.2)
  | BufOp.drainOp :: rest =>
    let out := sb.Drain
    let r := runOps out.2 rest
    (r.1, out.1 ++ r.2)

/-- The sweeps successfully inserted by a sequence of operations (nil inserts
are rejected). -/
def insertedOf : List BufOp → List SweepResult
  | [] => []
  | BufOp.insertOp (some s) :: rest => s :: insertedOf rest
  | BufOp.insertOp none :: rest => insertedOf rest
  | BufOp.flushOp :: rest => insertedOf rest
  | BufOp.drainOp :: rest => insertedOf rest

/-- Conservation over a run: the emitted sweeps plus the sweeps still
buffered are a permutation of the initial contents plus the successfully
inserted sweeps, all up to the documented timestamp nudge. -/
theorem runOps_perm (ops : List BufOp) : ∀ sb : SweepsBuffer,
    ((runOps sb ops).2.map eraseTs ++ (runOps sb ops).1.items.map eraseTs).Perm
      (sb.items.map eraseTs ++ (insertedOf ops).map eraseTs) := by
  induction ops with
  | nil => intro sb; simp [runOps, insertedOf]
  | cons op rest ih =>
    intro sb
    cases op with
    | insertOp o =>
      cases o with
      | none => simpa [runOps, insertedOf] using ih sb
      | some s =>
        obtain ⟨s₂, hperm, hts⟩ := insertSome_perm sb s
        have step1 : ((sb.insertSome s).items.map eraseTs
              ++ (insertedOf rest).map eraseTs).Perm
            ((s₂ :: sb.items).map eraseTs ++ (insertedOf rest).map eraseTs) :=
          (hperm.map eraseTs).append_right _
        have step2 : (s₂ :: sb.items).map eraseTs ++ (insertedOf rest).map eraseTs
            = eraseTs s :: (sb.items.map eraseTs ++ (insertedOf rest).map eraseTs) := by
          simp [hts]
        have step3 : ((s₂ :: sb.items).map eraseTs
              ++ (insertedOf rest).map eraseTs).Perm
            (sb.items.map eraseTs ++ eraseTs s :: (insertedOf rest).map eraseTs) := by
          rw [step2]; exact List.perm_middle.symm
        simp only [runOps, insertedOf, List.map_cons]
        exact (ih (sb.insertSome s)).trans (step1.trans step3)
    | flushOp =>
      simp only [runOps, insertedOf, List.map_append, List.append_assoc]
      refine ((ih (sb.Flush).2).append_left _).trans ?_
      rw [← List.append_assoc, ← List.map_append, flush_parts]
    | drainOp =>
      simp only [runOps, insertedOf, List.map_append, List.append_assoc]
      refine ((ih (sb.Drain).2).append_left _).trans ?_
      simp [SweepsBuffer.Drain]

/-- Claim C10: the frequency buffer conserves its contents.  Every insert of
a non-nil sweep grows the stored list by exactly one (the scan always finds
an insertion point); Flush returns an initial segment and keeps exactly the
rest; Drain returns everything and empties the buffer; and over any
operation sequence the multiset of emitted plus still-buffered sweeps
equals the multiset of successfully inserted sweeps (plus the initial
contents), where sweeps are compared up to the documented timestamp nudge
(the only mutation Insert performs). -/
theorem c10_buffer_conservation :
    (∀ (sb : SweepsBuffer) (s : SweepResult),
        (sb.insertSome s).Size = sb.Size + 1) ∧
    (∀ sb : SweepsBuffer, (sb.Flush).1 ++ (sb.Flush).2.items = sb.items) ∧
    (∀ sb : SweepsBuffer, (sb.Drain).1 = sb.items ∧ (sb.Drain).2.items = []) ∧
    (∀ (sb : SweepsBuffer) (ops : List BufOp),
        ((runOps sb ops).2.map eraseTs ++ (runOps sb ops).1.items.map eraseTs).Perm
          (sb.items.map eraseTs ++ (insertedOf ops).map eraseTs)) := by
  refine ⟨?_, flush_parts, fun sb => ⟨rfl, rfl⟩, fun sb ops => runOps_perm ops sb⟩
  intro sb s
  unfold SweepsBuffer.Size
  rw [insertSome_length]
  push_cast
  ring

end Sdr

namespace Sdr

/-- ParseErrorsThreshold from `internal/sdr` (device loop): the default
number of consecutive parse errors allowed. -/
def ParseErrorsThreshold : Nat := 5

/-- Outcome of one stdout line in `Device.handleStdout`: the trimmed line is
empty (skipped without touching the counter), parses successfully, or fails
to parse.  This abstracts the text of the line by what `strings.TrimSpace`
and `handler.Parse` decide about it. -/
inductive LineOutcome where
  | blank : LineOutcome
  | parsedOk : LineOutcome
  | parseFail : LineOutcome
deriving DecidableEq

/-- Predicate for blank lines. -/
def LineOutcome.isBlank : LineOutcome → Bool
  | LineOutcome.blank => true
  | _ => false

/-- The consecutive-parse-error loop of `Device.handleStdout`: blank lines
are skipped, a successful parse resets the counter to zero, and a failed
parse increments it, reporting `ErrTooManyParseErrors` (true) as soon as
the counter reaches the threshold.  The Go counter is a `uint8`; with any
threshold `≤ 255` it can never wrap before hitting the threshold, so the
`Nat` counter is exact. -/
def handleStdoutTooMany (threshold : Nat) : Nat → List LineOutcome → Bool
  | _, [] => false
  | c, LineOutcome.blank :: ls => handleStdoutTooMany threshold c ls
  | _, LineOutcome.parsedOk :: ls => handleStdoutTooMany threshold 0 ls
  | c, LineOutcome.parseFail :: ls =>
    if threshold ≤ c + 1 then true else handleStdoutTooMany threshold (c + 1) ls

/-- The non-blank lines of a stdout stream, in order. -/
def removeBlanks (ls : List LineOutcome) : List LineOutcome :=
  ls.filter (fun l => !l.isBlank)

/-- Blank lines never influence the parse-error counter. -/
theorem tooMany_removeBlanks (t : Nat) :
    ∀ (ls : List LineOutcome) (c : Nat),
      handleStdoutTooMany t c ls = handleStdoutTooMany t c (removeBlanks ls) := by
  intro ls
  induction ls with
  | nil => intro c; rfl
  | cons l ls ih =>
    intro c
    cases l with
    | blank =>
      rw [show removeBlanks (LineOutcome.blank :: ls) = removeBlanks ls from rfl]
      exact ih c
    | parsedOk =>
      rw [show removeBlanks (LineOutcome.parsedOk :: ls)
            = LineOutcome.parsedOk :: removeBlanks ls from rfl]
      exact ih 0
    | parseFail =>
      rw [show removeBlanks (LineOutcome.parseFail :: ls)
            = LineOutcome.parseFail :: removeBlanks ls from rfl]
      show (if t ≤ c + 1 then true else handleStdoutTooMany t (c + 1) ls)
        = (if t ≤ c + 1 then true else handleStdoutTooMany t (c + 1) (removeBlanks ls))
      split
      · rfl
      · exact ih (c + 1)

/-- No blank line survives `removeBlanks`. -/
theorem blank_not_mem_removeBlanks (ls : List LineOutcome) :
    LineOutcome.blank ∉ removeBlanks ls := by
  intro hm
  have := (List.mem_filter.mp hm).2
  simp [LineOutcome.isBlank] at this

/-- Characterization of the error loop on blank-free input, generalized over
the running counter value `c < 5`: the threshold is hit exactly when the
input starts with `5 − c` failures in a row or contains five consecutive
failures somewhere. -/
theorem tooMany_aux :
    ∀ (ls : List LineOutcome) (c : Nat), c < 5 → LineOutcome.blank ∉ ls →
      (handleStdoutTooMany 5 c ls = true ↔
        (∃ l₂, ls = List.replicate (5 - c) LineOutcome.parseFail ++ l₂) ∨
        (∃ l₁ l₂, ls = l₁ ++ List.replicate 5 LineOutcome.parseFail ++ l₂)) := by
  intro ls
  induction ls with
  | nil =>
    intro c hc _
    constructor
    · intro h; exact absurd h (by simp [handleStdoutTooMany])
    · rintro (⟨l₂, h⟩ | ⟨l₁, l₂, h⟩)
      · have := congrArg List.length h
        simp [List.length_replicate] at this
        omega
      · have := congrArg List.length h
        simp [List.length_replicate] at this
        omega
  | cons l ls ih =>
    intro c hc hnb
    have hnb₂ : LineOutcome.blank ∉ ls := fun hm => hnb (List.mem_cons_of_mem _ hm)
    cases l with
    | blank => exact absurd (List.mem_cons_self _ _) hnb
    | parsedOk =>
      rw [show handleStdoutTooMany 5 c (LineOutcome.parsedOk :: ls)
            = handleStdoutTooMany 5 0 ls from rfl]
      rw [ih 0 (by omega) hnb₂]
      constructor
      · rintro (⟨l₂, h⟩ | ⟨l₁, l₂, h⟩)
        · exact Or.inr ⟨[LineOutcome.parsedOk], l₂, by rw [h]; rfl⟩
        · exact Or.inr ⟨LineOutcome.parsedOk :: l₁, l₂, by rw [h]; rfl⟩
      · rintro (⟨l₂, h⟩ | ⟨l₁, l₂, h⟩)
        · have h5 : 5 - c = (4 - c) + 1 := by omega
          rw [h5, List.replicate_succ] at h
          simp at h
        · cases l₁ with
          | nil =>
            rw [List.nil_append, List.replicate_succ] at h
            simp at h
          | cons x l₁ =>
            rw [List.cons_append, List.cons_append] at h
            obtain ⟨-, h₂⟩ := List.cons.inj h
            exact Or.inr ⟨l₁, l₂, h₂⟩
    | parseFail =>
      rw [show handleStdoutTooMany 5 c (LineOutcome.parseFail :: ls)
            = (if 5 ≤ c + 1 then true else handleStdoutTooMany 5 (c + 1) ls) from rfl]
      by_cases h5 : 5 ≤ c + 1
      · rw [if_pos h5]
        have hc4 : c = 4 := by omega
        constructor
        · intro _
          refine Or.inl ⟨ls, ?_⟩
          rw [hc4]
          rfl
        · intro _; rfl
      · rw [if_neg h5]
        rw [ih (c + 1) (by omega) hnb₂]
        have hsplit : 5 - c = (5 - (c + 1)) + 1 := by omega
        constructor
        · rintro (⟨l₂, h⟩ | ⟨l₁, l₂, h⟩)
          · refine Or.inl ⟨l₂, ?_⟩
            rw [hsplit, List.replicate_succ, List.cons_append, h]
          · exact Or.inr ⟨LineOutcome.parseFail :: l₁, l₂, by rw [h]; rfl⟩
        · rintro (⟨l₂, h⟩ | ⟨l₁, l₂, h⟩)
          · rw [hsplit, List.replicate_succ, List.cons_append] at h
            obtain ⟨-, h₂⟩ := List.cons.inj h
            exact Or.inl ⟨l₂, h₂⟩
          · cases l₁ with
            | nil =>
              rw [List.nil_append, List.replicate_succ, List.cons_append] at h
              obtain ⟨-, h₂⟩ := List.cons.inj h
              refine Or.inl ⟨List.replicate (4 - (5 - (c + 1))) LineOutcome.parseFail
                ++ l₂, ?_⟩
              rw [h₂, ← List.append_assoc, ← List.replicate_add]
              have h4 : (5 - (c + 1)) + (4 - (5 - (c + 1))) = 4 := by omega
              rw [h4]
            | cons x l₁ =>
              rw [List.cons_append, List.cons_append] at h
              obtain ⟨-, h₂⟩ := List.cons.inj h
              exact Or.inr ⟨l₁, l₂, h₂⟩

/-- Claim C6: the device reports ErrTooManyParseErrors (here: the stdout
loop answers true) if and only if the stream contains
`ParseErrorsThreshold = 5` consecutive failing lines with no successful
line between them (blank lines are skipped and neither reset nor advance
the counter); the counter resets to zero on every successful line, so any
good line between two shorter runs of bad lines prevents the error. -/
theorem c6_parse_error_budget (ls : List LineOutcome) :
    handleStdoutTooMany ParseErrorsThreshold 0 ls = true ↔
      ∃ l₁ l₂, removeBlanks ls
        = l₁ ++ List.replicate ParseErrorsThreshold LineOutcome.parseFail ++ l₂ := by
  show handleStdoutTooMany 5 0 ls = true ↔ _
  rw [tooMany_removeBlanks 5 ls 0]
  rw [tooMany_aux (removeBlanks ls) 0 (by omega) (blank_not_mem_removeBlanks ls)]
  constructor
  · rintro (⟨l₂, h⟩ | h)
    · exact ⟨[], l₂, by rw [h]; rfl⟩
    · exact h
  · intro h
    exact Or.inr h

end Sdr

namespace Storage

/-- sampleData row from `internal/storage/models.go` as written by
`toSampleData` in `helpers.go`: an invalid power reading is stored as a SQL
NULL (here `none`); the timestamp comes from the sweep (the Go UTC
conversion does not change the instant). -/
structure SampleData where
  sessionID : Int
  timestamp : Int
  frequency : ℚ
  binWidth : ℚ
  power : Option ℚ
  numSamples : Int
  telemetryID : Option Int
deriving DecidableEq

/-- toSampleData from `internal/storage/helpers.go`. -/
def toSampleData (sessionID : Int) (telemetryID : Option Int)
    (r : Sdr.PowerReading) (sr : Sdr.SweepResult) : SampleData :=
  { sessionID := sessionID, timestamp := sr.timestamp, frequency := r.frequency,
    binWidth := sr.binWidth,
    power := if r.isValid then some r.power else none,
    numSamples := sr.numSamples, telemetryID := telemetryID }

/-- Errors `StoreSweepResult` can return: a failed row insert, or
`sql.ErrTxDone` from the deferred `rollbackWithError` running after a
successful `Commit` (rolling back a committed transaction returns
`ErrTxDone`, and `rollbackWithError` stores it since `err` is still nil). -/
inductive StoreErr where
  | insertFailed : StoreErr
  | txDone : StoreErr
deriving DecidableEq

/-- The insert loop of `StoreSweepResult`, writing into the pending
transaction: each `ExecContext` either fails (modelled by the injected
failure index `failAt`) or appends one row to the transaction buffer. -/
def execInserts (failAt : Option Nat) (sessionID : Int) (telemetryID : Option Int)
    (sr : Sdr.SweepResult) : List Sdr.PowerReading → Nat → Option (List SampleData)
  | [], _ => some []
  | r :: rs, i =>
    if failAt = some i then none
    else (execInserts failAt sessionID telemetryID sr rs (i + 1)).map
      (fun tail => toSampleData sessionID telemetryID r sr :: tail)

/-- StoreSweepResult from `internal/storage/store.go` over an explicit
samples table (list of rows) with SQL transaction semantics: empty readings
return nil immediately (before the transaction begins); otherwise all rows
are written into the transaction, which is committed atomically, and a
failed insert returns the error with the transaction rolled back, so the
table is unchanged.  On the success path the deferred `rollbackWithError`
still stores `ErrTxDone` into the returned error (see `StoreErr.txDone`). -/
def StoreSweepResult (db : List SampleData) (failAt : Option Nat)
    (sessionID : Int) (telemetryID : Option Int) (result : Sdr.SweepResult) :
    List SampleData × Option StoreErr :=
  if result.readings.isEmpty then (db, none)
  else
    match execInserts failAt sessionID telemetryID result result.readings 0 with
    | none => (db, some StoreErr.insertFailed)
    | some pending => (db ++ pending, some StoreErr.txDone)

/-- When the injected failure lies outside the readings window, the insert
loop produces all rows. -/
theorem execInserts_ok (failAt : Option Nat) (sid : Int) (tid : Option Int)
    (sr : Sdr.SweepResult) :
    ∀ (rs : List Sdr.PowerReading) (i : Nat),
      (∀ k, failAt = some k → k < i ∨ i + rs.length ≤ k) →
      execInserts failAt sid tid sr rs i
        = some (rs.map (fun r => toSampleData sid tid r sr)) := by
  intro rs
  induction rs with
  | nil => intro i _; rfl
  | cons r rs ih =>
    intro i hout
    have hne : failAt ≠ some i := by
      intro he
      rcases hout i he with h | h
      · omega
      · rw [List.length_cons] at h
        omega
    show (if failAt = some i then none
      else (execInserts failAt sid tid sr rs (i + 1)).map
        (fun tail => toSampleData sid tid r sr :: tail)) = _
    rw [if_neg hne, ih (i + 1) ?_]
    · rfl
    · intro k hk
      rcases hout k hk with h | h
      · omega
      · rw [List.length_cons] at h
        omega

/-- When the injected failure lies inside the readings window, the insert
loop fails. -/
theorem execInserts_fail (failAt : Option Nat) (sid : Int) (tid : Option Int)
    (sr : Sdr.SweepResult) :
    ∀ (rs : List Sdr.PowerReading) (i k : Nat),
      failAt = some k → i ≤ k → k < i + rs.length →
      execInserts failAt sid tid sr rs i = none := by
  intro rs
  induction rs with
  | nil => intro i k _ hle hlt; simp at hlt; omega
  | cons r rs ih =>
    intro i k hk hle hlt
    show (if failAt = some i then none
      else (execInserts failAt sid tid sr rs (i + 1)).map
        (fun tail => toSampleData sid tid r sr :: tail)) = none
    by_cases he : failAt = some i
    · rw [if_pos he]
    · rw [if_neg he]
      have hik : i ≠ k := fun h => he (h ▸ hk)
      rw [ih (i + 1) k hk (by omega) (by rw [List.length_cons] at hlt; omega)]
      rfl

/-- Claim C7: StoreSweepResult is atomic per sweep.  With empty readings it
returns nil and writes nothing; with n ≥ 1 readings, a failure injected on
any k-th row (k < n) leaves the samples table unchanged (rollback), and
with no failure in range all n rows are appended (commit).  On the success
path the returned error is the `ErrTxDone` produced by the deferred
rollback after commit, not nil. -/
theorem c7_store_sweep_atomic (db : List SampleData) (failAt : Option Nat)
    (sid : Int) (tid : Option Int) (result : Sdr.SweepResult) :
    (result.readings = [] → StoreSweepResult db failAt sid tid result = (db, none)) ∧
    (∀ k, failAt = some k → k < result.readings.length →
      StoreSweepResult db failAt sid tid result = (db, some StoreErr.insertFailed)) ∧
    ((∀ k, failAt = some k → result.readings.length ≤ k) → result.readings ≠ [] →
      StoreSweepResult db failAt sid tid result
        = (db ++ result.readings.map (fun r => toSampleData sid tid r result),
           some StoreErr.txDone)) := by
  refine ⟨?_, ?_, ?_⟩
  · intro h
    unfold StoreSweepResult
    rw [if_pos (by simp [h])]
  · intro k hk hlt
    have hne : ¬ result.readings.isEmpty := by
      cases hr : result.readings with
      | nil => rw [hr] at hlt; simp at hlt
      | cons x xs => simp [hr]
    unfold StoreSweepResult
    rw [if_neg (by simpa using hne),
      execInserts_fail failAt sid tid result result.readings 0 k hk (by omega)
        (by omega)]
  · intro hout hne
    unfold StoreSweepResult
    rw [if_neg (by simpa using hne),
      execInserts_ok failAt sid tid result result.readings 0 ?_]
    intro k hk
    exact Or.inr (by simpa using hout k hk)

/-- A concrete sweep result with two readings for the C7 witness. -/
def c7Result : Sdr.SweepResult :=
  { timestamp := 0, startFrequency := 100000000, endFrequency := 100200000,
    binWidth := 100000, numSamples := 1,
    readings := [{ frequency := 100050000, power := -20, isValid := true },
                 { frequency := 100150000, power := 0, isValid := false }],
    device := "RTL-SDR", deviceID := "0" }

/-- Witness for C7: injecting a failure on the second row of a two-reading
sweep leaves the (empty) samples table unchanged and reports the insert
failure. -/
theorem c7_store_sweep_atomic_witness :
    StoreSweepResult [] (some 1) 7 none c7Result
      = ([], some StoreErr.insertFailed) :=
  (c7_store_sweep_atomic [] (some 1) 7 none c7Result).2.1 1 rfl (by decide)

end Storage

namespace Rtl

/-- BinWidthMin from the rtl config source. -/
def BinWidthMin : Int := 1

/-- BinWidthMax from the rtl config source. -/
def BinWidthMax : Int := 2800000

/-- One second in nanoseconds (`time.Second`); `TimeDuration` values are
`time.Duration` nanosecond counts. -/
def oneSecondNs : Int := 1000000000

/-- The valid window function names of the rtl config source. -/
def validWindowFunctions : List String :=
  ["rectangle", "hamming", "blackman", "blackman-harris", "hann-poisson",
   "youssef", "kaiser", "bartlett"]

/-- The valid smoothing method names of the rtl config source. -/
def validSmoothingMethods : List String := ["avg", "iir"]

/-- Config for the rtl sweeper tool (`rtl_power`), from the rtl package
config source: time durations in nanoseconds, `crop` a (binary32) fraction
embedded as a rational, `firSize` an optional pointer. -/
structure Config where
  frequencyStart : Int
  frequencyEnd : Int
  binWidth : Int
  interval : Int
  deviceIndex : Int
  gain : Int
  ppmError : Int
  exitTimer : Int
  smoothing : String
  fftThreads : Int
  windowFunction : String
  crop : ℚ
  firSize : Option Int
  peakHold : Bool
  directSampling : Bool
  offsetTuning : Bool
  biasTee : Bool
deriving DecidableEq

/-- The validation error kinds of `rtl Config.Validate`, one per error
branch of the source. -/
inductive ConfigErr where
  | freqStartNotPositive : ConfigErr
  | freqEndNotPositive : ConfigErr
  | freqEndNotGreaterThanStart : ConfigErr
  | invalidBinWidth : ConfigErr
  | invalidInterval : ConfigErr
  | invalidExitTimer : ConfigErr
  | invalidWindowFunction : ConfigErr
  | invalidSmoothing : ConfigErr
  | invalidCrop : ConfigErr
  | invalidFIRSize : ConfigErr
deriving DecidableEq

/-- The FIR-size check of `Validate`:
`c.FIRSize != nil && *c.FIRSize != 0 && *c.FIRSize != 9`. -/
def firSizeBad : Option Int → Bool
  | some f => f != 0 && f != 9
  | none => false

/-- Validate from the rtl config source, with checks in source order.
`TimeDuration.Validate` (negative, or nonzero below one second) is inlined
at its two call sites, each guarded by the duration being positive. -/
def Validate (c : Config) : Option ConfigErr :=
  if c.frequencyStart ≤ 0 then some ConfigErr.freqStartNotPositive
  else if c.frequencyEnd ≤ 0 then some ConfigErr.freqEndNotPositive
  else if c.frequencyEnd ≤ c.frequencyStart then some ConfigErr.freqEndNotGreaterThanStart
  else if c.binWidth < BinWidthMin ∨ c.binWidth > BinWidthMax then some ConfigErr.invalidBinWidth
  else if 0 < c.interval ∧ (c.interval < 0 ∨ (0 < c.interval ∧ c.interval < oneSecondNs)) then
    some ConfigErr.invalidInterval
  else if 0 < c.exitTimer ∧ (c.exitTimer < 0 ∨ (0 < c.exitTimer ∧ c.exitTimer < oneSecondNs)) then
    some ConfigErr.invalidExitTimer
  else if c.windowFunction ≠ "" ∧ c.windowFunction ∉ validWindowFunctions then
    some ConfigErr.invalidWindowFunction
  else if c.smoothing ≠ "" ∧ c.smoothing ∉ validSmoothingMethods then
    some ConfigErr.invalidSmoothing
  else if c.crop < 0 ∨ c.crop > 1 then some ConfigErr.invalidCrop
  else if firSizeBad c.firSize then some ConfigErr.invalidFIRSize
  else none

/-- TimeDuration.String from the rtl config source: the shortest exact unit
among hours, minutes, seconds (Go integer division truncates). -/
def timeDurationString (d : Int) : String :=
  if Int.tmod d 3600000000000 = 0 then toString (Int.tdiv d 3600000000000) ++ "h"
  else if Int.tmod d 60000000000 = 0 then toString (Int.tdiv d 60000000000) ++ "m"
  else toString (Int.tdiv d 1000000000) ++ "s"

/-- Rendering of the crop fraction
(`strconv.FormatFloat(float64(crop), 'f', 2, 32)`): two decimals.  The
digit-level tie rounding of strconv is approximated by round-half-up on the
exact rational; no claim below depends on these digits. -/
def formatCrop (q : ℚ) : String :=
  let cents : Int := ⌊q * 100 + 1 / 2⌋
  toString (Int.tdiv cents 100) ++ "." ++
    (if Int.tmod cents 100 < 10 then "0" ++ toString (Int.tmod cents 100)
     else toString (Int.tmod cents 100))

/-- Args from the rtl config source: validation first (an invalid config
yields an error, here `none`), then the argv list in source order, always
ending with the `-` stdout sentinel. -/
def Args (c : Config) : Option (List String) :=
  match Validate c with
  | some _ => none
  | none => some (
    let args := ["-f", toString c.frequencyStart ++ ":" ++ toString c.frequencyEnd
      ++ ":" ++ toString c.binWidth]
    let args := args ++ (if 0 < c.interval then ["-i", timeDurationString c.interval] else [])
    let args := args ++ ["-d", toString c.deviceIndex]
    let args := args ++ (if 0 < c.gain then ["-g", toString c.gain] else [])
    let args := args ++ (if c.ppmError ≠ 0 then ["-p", toString c.ppmError] else [])
    let args := args ++ (if 0 < c.exitTimer then ["-e", timeDurationString c.exitTimer] else [])
    let args := args ++ (if c.smoothing ≠ "" then ["-s", c.smoothing] else [])
    let args := args ++ (if 0 < c.fftThreads then ["-t", toString c.fftThreads] else [])
    let args := args ++ (if c.windowFunction ≠ "" then ["-w", c.windowFunction] else [])
    let args := args ++ (if 0 < c.crop then ["-c", formatCrop c.crop] else [])
    let args := args ++ (match c.firSize with | some f => ["-F", toString f] | none => [])
    let args := args ++ (if c.peakHold then ["-P"] else [])
    let args := args ++ (if c.directSampling then ["-D"] else [])
    let args := args ++ (if c.offsetTuning then ["-O"] else [])
    let args := args ++ (if c.biasTee then ["-T"] else [])
    args ++ ["-"])

end Rtl

namespace Hackrf

/-- MinNumSamples from the hackrf config source. -/
def MinNumSamples : Int := 8192

/-- MaxLNAGain from the hackrf config source. -/
def MaxLNAGain : Int := 40

/-- MaxVGAGain from the hackrf config source. -/
def MaxVGAGain : Int := 62

/-- LNAGainStep from the hackrf config source. -/
def LNAGainStep : Int := 8

/-- VGAGainStep from the hackrf config source. -/
def VGAGainStep : Int := 2

/-- Config for the hackrf sweeper tool (`hackrf_sweep`), from
`internal/sdr/hackrf/config.go`: frequencies in Hz, optional LNA/VGA gain
pointers, bin width and sample count, hardware flags, sweep count. -/
structure Config where
  frequencyStart : Int
  frequencyEnd : Int
  lnaGain : Option Int
  vgaGain : Option Int
  binWidth : Int
  numSamples : Int
  enableAmp : Bool
  antennaPower : Bool
  numSweeps : Int
deriving DecidableEq

/-- The validation error kinds of `hackrf Config.Validate`, one per error
branch of the source. -/
inductive ConfigErr where
  | freqRange : ConfigErr
  | lnaRange : ConfigErr
  | lnaStep : ConfigErr
  | vgaRange : ConfigErr
  | vgaStep : ConfigErr
  | badNumSamples : ConfigErr
  | badNumSweeps : ConfigErr
deriving DecidableEq

/-- The NumSamples and NumSweeps checks of `Validate`, in source order. -/
def checkNums (c : Config) : Option ConfigErr :=
  if 0 < c.numSamples ∧ c.numSamples < MinNumSamples then some ConfigErr.badNumSamples
  else if c.numSweeps < 0 then some ConfigErr.badNumSweeps
  else none

/-- The VGA gain checks of `Validate` (range, then step), falling through to
the numeric checks. -/
def checkVga (c : Config) : Option ConfigErr :=
  match c.vgaGain with
  | some g =>
    if g < 0 ∨ g > MaxVGAGain then some ConfigErr.vgaRange
    else if g % VGAGainStep ≠ 0 then some ConfigErr.vgaStep
    else checkNums c
  | none => checkNums c

/-- The LNA gain checks of `Validate` (range, then step), falling through to
the VGA checks. -/
def checkLna (c : Config) : Option ConfigErr :=
  match c.lnaGain with
  | some l =>
    if l < 0 ∨ l > MaxLNAGain then some ConfigErr.lnaRange
    else if l % LNAGainStep ≠ 0 then some ConfigErr.lnaStep
    else checkVga c
  | none => checkVga c

/-- Validate from `internal/sdr/hackrf/config.go`: the only frequency check
is `FrequencyStart >= FrequencyEnd`; then LNA gain (range and 8 dB step),
VGA gain (range and 2 dB step), NumSamples (at least 8192 when positive)
and NumSweeps (non-negative). -/
def Validate (c : Config) : Option ConfigErr :=
  if c.frequencyStart ≥ c.frequencyEnd then some ConfigErr.freqRange
  else checkLna c

/-- Args from `internal/sdr/hackrf/config.go`: validation first, then the
argv list in source order.  The frequency pair is in integer MHz
(`FrequencyStart/1e6` with Go integer division); no `-` sentinel is ever
appended (hackrf_sweep writes to stdout by default). -/
def Args (c : Config) (serialNumber : String) : Option (List String) :=
  match Validate c with
  | some _ => none
  | none => some (
    let args := ["-f", toString (Int.tdiv c.frequencyStart 1000000) ++ ":"
      ++ toString (Int.tdiv c.frequencyEnd 1000000)]
    let args := args ++ (if serialNumber ≠ "" then ["-d", serialNumber] else [])
    let args := args ++ (if 0 < c.binWidth then ["-w", toString c.binWidth] else [])
    let args := args ++ (match c.lnaGain with | some l => ["-l", toString l] | none => [])
    let args := args ++ (match c.vgaGain with | some g => ["-g", toString g] | none => [])
    let args := args ++ (if 8192 ≤ c.numSamples then ["-n", toString c.numSamples] else [])
    let args := args ++ (if c.enableAmp then ["-a", "1"] else [])
    let args := args ++ (if c.antennaPower then ["-p", "1"] else [])
    let args := args ++ (if 0 < c.numSweeps then ["-N", toString c.numSweeps] else [])
    args)

end Hackrf

/-- A minimal valid hackrf configuration (the man-page example band with no
optional flags set). -/
def c8HackrfConfig : Hackrf.Config :=
  { frequencyStart := 824000000, frequencyEnd := 849000000, lnaGain := none,
    vgaGain := none, binWidth := 0, numSamples := 0, enableAmp := false,
    antennaPower := false, numSweeps := 0 }

/-- Claim C8 counterexample: the hackrf argv for a valid configuration is
["-f", "824:849"], whose last element is not the `-` stdout sentinel — the
hackrf Args never appends one. -/
theorem c8_sentinel_counterexample :
    Hackrf.Args c8HackrfConfig "" = some ["-f", "824:849"] ∧
    (["-f", "824:849"] : List String).getLast? ≠ some "-" := by
  constructor
  · rfl
  · decide

/-- Claim C8 (amended): every valid RTL configuration yields an argv ending
in the `-` stdout sentinel, but the HackRF argv never carries the sentinel
(hackrf_sweep streams to stdout by default): a valid hackrf config with no
optional flags yields exactly ["-f", "824:849"]. -/
theorem c8_stdout_sentinel_amended :
    (∀ (c : Rtl.Config) (args : List String),
        Rtl.Args c = some args → args.getLast? = some "-") ∧
    Hackrf.Args c8HackrfConfig "" = some ["-f", "824:849"] := by
  constructor
  · intro c args h
    unfold Rtl.Args at h
    cases hv : Rtl.Validate c with
    | some e => rw [hv] at h; exact absurd h (by simp)
    | none =>
      rw [hv] at h
      rw [← Option.some.inj h]
      exact List.getLast?_concat _
  · rfl

/-- The FM-band example RTL configuration, valid with all optional fields at
their zero values. -/
def c8RtlConfig : Rtl.Config :=
  { frequencyStart := 88000000, frequencyEnd := 108000000, binWidth := 125000,
    interval := 0, deviceIndex := 0, gain := 0, ppmError := 0, exitTimer := 0,
    smoothing := "", fftThreads := 0, windowFunction := "", crop := 0,
    firSize := none, peakHold := false, directSampling := false,
    offsetTuning := false, biasTee := false }

/-- Witness for the amended C8: the argv of a concrete valid RTL
configuration ends with the sentinel. -/
theorem c8_stdout_sentinel_witness :
    (["-f", "88000000:108000000:125000", "-d", "0", "-"] : List String).getLast?
      = some "-" :=
  c8_stdout_sentinel_amended.1 c8RtlConfig _ rfl

/-- A hackrf configuration with a non-positive start frequency that the
validator accepts. -/
def c9HackrfConfig : Hackrf.Config :=
  { frequencyStart := 0, frequencyEnd := 1000000, lnaGain := none,
    vgaGain := none, binWidth := 0, numSamples := 0, enableAmp := false,
    antennaPower := false, numSweeps := 0 }

/-- Claim C9 counterexample: a hackrf configuration with freqStart = 0 (and
freqEnd > freqStart) passes Validate, contradicting the claim that every
configuration with freqStart ≤ 0 is rejected by both validators. -/
theorem c9_validate_counterexample :
    c9HackrfConfig.frequencyStart ≤ 0 ∧ Hackrf.Validate c9HackrfConfig = none := by
  constructor
  · decide
  · rfl

/-- The section-3 invariants, as the RTL validator actually enforces them. -/
def rtlInvariants (c : Rtl.Config) : Prop :=
  0 < c.frequencyStart ∧ 0 < c.frequencyEnd ∧ c.frequencyStart < c.frequencyEnd ∧
  Rtl.BinWidthMin ≤ c.binWidth ∧ c.binWidth ≤ Rtl.BinWidthMax ∧
  (0 < c.interval → Rtl.oneSecondNs ≤ c.interval) ∧
  (0 < c.exitTimer → Rtl.oneSecondNs ≤ c.exitTimer) ∧
  (c.windowFunction = "" ∨ c.windowFunction ∈ Rtl.validWindowFunctions) ∧
  (c.smoothing = "" ∨ c.smoothing ∈ Rtl.validSmoothingMethods) ∧
  0 ≤ c.crop ∧ c.crop ≤ 1 ∧
  (c.firSize = none ∨ c.firSize = some 0 ∨ c.firSize = some 9)

/-- The RTL validator accepts exactly the configurations satisfying its
invariant set. -/
theorem rtlValidate_iff (c : Rtl.Config) :
    Rtl.Validate c = none ↔ rtlInvariants c := by
  unfold Rtl.Validate rtlInvariants
  constructor
  · intro h
    split_ifs at h with h1 h2 h3 h4 h5 h6 h7 h8 h9 h10 <;> try simp at h
    simp only [Rtl.BinWidthMin, Rtl.BinWidthMax] at h4
    simp only [Rtl.oneSecondNs] at h5 h6
    simp only [Rtl.BinWidthMin, Rtl.BinWidthMax, Rtl.oneSecondNs]
    refine ⟨by omega, by omega, by omega, by omega, by omega, by omega, by omega,
      by tauto, by tauto, ?_, ?_, ?_⟩
    · rw [not_or] at h9
      exact not_lt.mp h9.1
    · rw [not_or] at h9
      exact not_lt.mp h9.2
    · cases hf : c.firSize with
      | none => exact Or.inl rfl
      | some f =>
        rw [hf] at h10
        simp [Rtl.firSizeBad] at h10
        by_cases h0 : f = 0
        · exact Or.inr (Or.inl (by rw [h0]))
        · exact Or.inr (Or.inr (by rw [h10 h0]))
  · intro hR
    obtain ⟨ha, hb, hc, hd, he, hi, hx, hw, hs, hcl, hcu, hfir⟩ := hR
    simp only [Rtl.BinWidthMin, Rtl.BinWidthMax] at hd he
    simp only [Rtl.oneSecondNs] at hi hx
    rw [if_neg (by omega), if_neg (by omega), if_neg (by omega),
      if_neg (by simp only [Rtl.BinWidthMin, Rtl.BinWidthMax]; omega),
      if_neg (by simp only [Rtl.oneSecondNs]; omega),
      if_neg (by simp only [Rtl.oneSecondNs]; omega),
      if_neg (by tauto), if_neg (by tauto),
      if_neg (by rw [not_or]; exact ⟨not_lt.mpr hcl, not_lt.mpr hcu⟩),
      if_neg ?_]
    rcases hfir with hf | hf | hf <;> simp [hf, Rtl.firSizeBad]

/-- The invariants the HackRF validator actually enforces (note: no
positivity requirement on the start frequency). -/
def hackrfInvariants (c : Hackrf.Config) : Prop :=
  c.frequencyStart < c.frequencyEnd ∧
  (∀ l, c.lnaGain = some l →
    0 ≤ l ∧ l ≤ Hackrf.MaxLNAGain ∧ l % Hackrf.LNAGainStep = 0) ∧
  (∀ g, c.vgaGain = some g →
    0 ≤ g ∧ g ≤ Hackrf.MaxVGAGain ∧ g % Hackrf.VGAGainStep = 0) ∧
  (c.numSamples ≤ 0 ∨ Hackrf.MinNumSamples ≤ c.numSamples) ∧
  0 ≤ c.numSweeps

/-- The NumSamples and NumSweeps checks accept exactly their invariant. -/
theorem checkNums_iff (c : Hackrf.Config) :
    Hackrf.checkNums c = none ↔
      ((c.numSamples ≤ 0 ∨ 8192 ≤ c.numSamples) ∧ 0 ≤ c.numSweeps) := by
  unfold Hackrf.checkNums
  simp only [Hackrf.MinNumSamples]
  split_ifs with n1 n2
  · exact iff_of_false (by simp) (by omega)
  · exact iff_of_false (by simp) (by omega)
  · exact iff_of_true rfl (by omega)

/-- The VGA checks accept exactly their invariant (range, 2 dB step), on top
of the numeric checks. -/
theorem checkVga_iff (c : Hackrf.Config) :
    Hackrf.checkVga c = none ↔
      ((∀ g, c.vgaGain = some g → 0 ≤ g ∧ g ≤ 62 ∧ g % 2 = 0) ∧
       ((c.numSamples ≤ 0 ∨ 8192 ≤ c.numSamples) ∧ 0 ≤ c.numSweeps)) := by
  unfold Hackrf.checkVga
  cases hg : c.vgaGain with
  | none =>
    rw [checkNums_iff]
    constructor
    · intro hn
      exact ⟨fun g he => absurd he (by simp), hn⟩
    · intro hR
      exact hR.2
  | some g =>
    simp only [Hackrf.MaxVGAGain, Hackrf.VGAGainStep]
    split_ifs with v1 v2
    · refine iff_of_false (by simp) ?_
      rintro ⟨hv, -⟩
      obtain ⟨a, b, d⟩ := hv g rfl
      omega
    · refine iff_of_false (by simp) ?_
      rintro ⟨hv, -⟩
      obtain ⟨a, b, d⟩ := hv g rfl
      omega
    · rw [checkNums_iff]
      rw [not_or] at v1
      constructor
      · intro hn
        refine ⟨?_, hn⟩
        intro g₂ he
        have heg : g = g₂ := Option.some.inj he
        subst heg
        exact ⟨by omega, by omega, by omega⟩
      · intro hR
        exact hR.2

/-- The LNA checks accept exactly their invariant (range, 8 dB step), on top
of the VGA and numeric checks. -/
theorem checkLna_iff (c : Hackrf.Config) :
    Hackrf.checkLna c = none ↔
      ((∀ l, c.lnaGain = some l → 0 ≤ l ∧ l ≤ 40 ∧ l % 8 = 0) ∧
       (∀ g, c.vgaGain = some g → 0 ≤ g ∧ g ≤ 62 ∧ g % 2 = 0) ∧
       ((c.numSamples ≤ 0 ∨ 8192 ≤ c.numSamples) ∧ 0 ≤ c.numSweeps)) := by
  unfold Hackrf.checkLna
  cases hl : c.lnaGain with
  | none =>
    rw [checkVga_iff]
    constructor
    · intro hn
      exact ⟨fun l he => absurd he (by simp), hn.1, hn.2⟩
    · intro hR
      exact ⟨hR.2.1, hR.2.2⟩
  | some l =>
    simp only [Hackrf.MaxLNAGain, Hackrf.LNAGainStep]
    split_ifs with l1 l2
    · refine iff_of_false (by simp) ?_
      rintro ⟨hlna, -⟩
      obtain ⟨a, b, d⟩ := hlna l rfl
      omega
    · refine iff_of_false (by simp) ?_
      rintro ⟨hlna, -⟩
      obtain ⟨a, b, d⟩ := hlna l rfl
      omega
    · rw [checkVga_iff]
      rw [not_or] at l1
      constructor
      · intro hn
        refine ⟨?_, hn.1, hn.2⟩
        intro l₂ he
        have hel : l = l₂ := Option.some.inj he
        subst hel
        exact ⟨by omega, by omega, by omega⟩
      · intro hR
        exact ⟨hR.2.1, hR.2.2⟩

/-- The HackRF validator accepts exactly the configurations satisfying its
invariant set. -/
theorem hackrfValidate_iff (c : Hackrf.Config) :
    Hackrf.Validate c = none ↔ hackrfInvariants c := by
  unfold Hackrf.Validate hackrfInvariants
  simp only [Hackrf.MaxLNAGain, Hackrf.MaxVGAGain, Hackrf.LNAGainStep,
    Hackrf.VGAGainStep, Hackrf.MinNumSamples]
  split_ifs with hfr
  · refine iff_of_false (by simp) ?_
    rintro ⟨h1, -⟩
    omega
  · rw [checkLna_iff]
    constructor
    · rintro ⟨hlna, hvga, hns, hsw⟩
      exact ⟨by omega, hlna, hvga, hns, hsw⟩
    · rintro ⟨h1, hlna, hvga, hns, hsw⟩
      exact ⟨hlna, hvga, hns, hsw⟩

/-- Claim C9 (amended): each validator accepts exactly the configurations
satisfying its own invariant set; every configuration with
`freqEnd ≤ freqStart` is rejected by both, and `freqStart ≤ 0` is rejected
by the RTL validator but not checked by the HackRF validator. -/
theorem c9_validate_amended :
    (∀ c : Rtl.Config, Rtl.Validate c = none ↔ rtlInvariants c) ∧
    (∀ c : Hackrf.Config, Hackrf.Validate c = none ↔ hackrfInvariants c) :=
  ⟨rtlValidate_iff, hackrfValidate_iff⟩

/-- Witness for the amended C9: the concrete FM-band RTL configuration is
accepted, via the characterization applied at that configuration. -/
theorem c9_validate_amended_witness : Rtl.Validate c8RtlConfig = none :=
  (c9_validate_amended.1 c8RtlConfig).mpr
    (by
      unfold rtlInvariants c8RtlConfig
      refine ⟨by decide, by decide, by decide, by decide, by decide,
        by intro h; exact absurd h (by decide), by intro h; exact absurd h (by decide),
        Or.inl rfl, Or.inl rfl, by decide, by decide, Or.inl rfl⟩)

namespace Storage

/-- SpectralPoint from `internal/spectrum/model.go`: power is nullable
(NULL for invalid persisted readings). -/
structure SpectralPoint where
  frequency : ℚ
  power : Option ℚ
  binWidth : ℚ
  numSamples : Int
deriving DecidableEq

/-- SpectralSpan from `internal/spectrum/model.go` (without telemetry). -/
structure SpectralSpan where
  timestamp : Int
  frequencyStart : ℚ
  frequencyEnd : ℚ
  samples : List SpectralPoint
deriving DecidableEq

/-- math.Abs on the embedded rationals. -/
def mathAbs (q : ℚ) : ℚ := if q < 0 then -q else q

/-- freqCompare from `internal/storage/helpers.go`: three-way comparison with
a tolerance of 1% of the bin width.  The Go constant 0.01 is the binary64
value nearest 1/100; the 2e-19 relative difference cannot change any
comparison in the scenarios below, where differences are either 0 or at
least one bin width. -/
def freqCompare (a b binWidth : ℚ) : Int :=
  let tolerance := binWidth * (1 / 100)
  let diff := a - b
  if mathAbs diff ≤ tolerance then 0
  else if diff < 0 then -1
  else 1

/-- freqLess from `helpers.go`. -/
def freqLess (a b binWidth : ℚ) : Bool := decide (freqCompare a b binWidth < 0)

/-- freqGreater from `helpers.go`. -/
def freqGreater (a b binWidth : ℚ) : Bool := decide (freqCompare a b binWidth > 0)

/-- createZeroPoint from the reader (`SqliteSpectrumReader`): a synthetic
zero-power point carrying the template bin width and sample count. -/
def createZeroPoint (freq : ℚ) (template : SpectralPoint) : SpectralPoint :=
  { frequency := freq, power := some 0, binWidth := template.binWidth,
    numSamples := template.numSamples }

/-- fillFrequencyRange from the reader: `none` models the invalid-bin-width
error; otherwise `⌊(stop − start)/binWidth⌋ + 1` candidate points at
`start + i·binWidth`, stopping at the first one beyond `stop` (the Go loop
breaks on `freq > end`). -/
def fillFrequencyRange (start stop : ℚ) (template : SpectralPoint) :
    Option (List SpectralPoint) :=
  let binWidth := template.binWidth
  if binWidth ≤ 0 then none
  else
    let numPoints : Int := ⌊(stop - start) / binWidth⌋ + 1
    if numPoints ≤ 0 then some []
    else some ((((List.range numPoints.toNat).map
        (fun (i : ℕ) => start + (i : ℚ) * binWidth)).takeWhile
        (fun f => decide (f ≤ stop))).map
        (fun f => createZeroPoint f template))

/-- One row of the prepared range query, ordered by (timestamp, frequency):
the scanned timestamp and spectral point. -/
structure SpectrumRow where
  timestamp : Int
  sample : SpectralPoint
deriving DecidableEq

/-- The reader error states reachable in this model: the `ErrNoData`
sentinel, and the invalid-bin-width error from gap filling. -/
inductive ReaderErr where
  | noData : ReaderErr
  | badBinWidth : ReaderErr
deriving DecidableEq

/-- State of `SqliteSpectrumReader` after initialization: the remaining
query rows, the effective frequency bounds (explicit filters or the
session min/max), the capacity hint, the span under construction, the
stashed first sample of the next span, and the error field. -/
structure ReaderState where
  rows : List SpectrumRow
  minFreq : ℚ
  maxFreq : ℚ
  numChunks : Int
  currentSpan : Option SpectralSpan
  nextSample : Option SpectrumRow
  err : Option ReaderErr
deriving DecidableEq

/-- The lazily computed capacity hint: `int((maxFreq − minFreq)/binWidth ×
1.1)` on first use.  Go multiplies by the binary64 value nearest 1.1;
the hint only sizes a slice allocation and never changes emitted data. -/
def ReaderState.updNumChunks (st : ReaderState) (bw : ℚ) : Int :=
  if st.numChunks = 0 then goTrunc (((st.maxFreq - st.minFreq) / bw) * (11 / 10))
  else st.numChunks

/-- Span creation in `Next` (both the deferred-sample block and the
first-row block): start the span at the sample, and when the sample sits
above the effective minimum frequency, prepend synthetic points covering
`[minFreq, sample.frequency]` and move the span start to `minFreq`.
`none` models the gap-fill error path. -/
def startSpan (st : ReaderState) (ts : Int) (sample : SpectralPoint) :
    Option ReaderState :=
  let nc := st.updNumChunks sample.binWidth
  let span0 : SpectralSpan :=
    { timestamp := ts, frequencyStart := sample.frequency, frequencyEnd := 0,
      samples := [sample] }
  if freqGreater sample.frequency st.minFreq sample.binWidth then
    match fillFrequencyRange st.minFreq sample.frequency sample with
    | none => none
    | some gapPoints =>
      some { st with
        numChunks := nc
        currentSpan := some { span0 with
          samples := gapPoints ++ span0.samples
          frequencyStart := st.minFreq } }
  else
    some { st with numChunks := nc, currentSpan := some span0 }

/-- Span completion in `Next` (rollover and end-of-rows): set the end
frequency to the last sample, and when it sits below the effective
maximum, append synthetic points covering
`[last.frequency + binWidth, maxFreq]` and move the span end to `maxFreq`.
The empty-samples case is unreachable (spans are created non-empty). -/
def closeSpan (span : SpectralSpan) (maxFreq : ℚ) : Option SpectralSpan :=
  match span.samples.getLast? with
  | none => some span
  | some lastSample =>
    let span := { span with frequencyEnd := lastSample.frequency }
    if freqLess lastSample.frequency maxFreq lastSample.binWidth then
      match fillFrequencyRange (lastSample.frequency + lastSample.binWidth)
          maxFreq lastSample with
      | none => none
      | some gapPoints =>
        some { span with
          samples := span.samples ++ gapPoints
          frequencyEnd := maxFreq }
    else some span

/-- The row-consuming loop of `Next`: exhausted rows close a non-empty span
with the `ErrNoData` sentinel attached; a row below the last frequency is a
rollover (close the span, stash the row, report a span); otherwise an
intra-span gap wider than one bin width is filled and the row appended. -/
def readerLoop (st : ReaderState) : List SpectrumRow → Bool × ReaderState
  | [] =>
    match st.currentSpan with
    | some span =>
      if span.samples.length ≠ 0 then
        match closeSpan span st.maxFreq with
        | none => (false, { st with rows := [], err := some ReaderErr.badBinWidth })
        | some span₂ =>
          (true, { st with
            rows := []
            currentSpan := some span₂
            err := some ReaderErr.noData })
      else (false, { st with rows := [] })
    | none => (false, { st with rows := [] })
  | row :: rest =>
    match st.currentSpan with
    | none =>
      match startSpan st row.timestamp row.sample with
      | none => (false, { st with rows := rest, err := some ReaderErr.badBinWidth })
      | some st₂ => readerLoop st₂ rest
    | some span =>
      let lastSample := (span.samples.getLast?).getD row.sample
      if row.sample.frequency < lastSample.frequency then
        match closeSpan span st.maxFreq with
        | none => (false, { st with rows := rest, err := some ReaderErr.badBinWidth })
        | some span₂ =>
          (true, { st with
            rows := rest
            currentSpan := some span₂
            nextSample := some row })
      else
        if freqLess (lastSample.frequency + lastSample.binWidth)
            row.sample.frequency lastSample.binWidth then
          match fillFrequencyRange (lastSample.frequency + lastSample.binWidth)
              row.sample.frequency lastSample with
          | none =>
            (false, { st with rows := rest, err := some ReaderErr.badBinWidth })
          | some gapPoints =>
            readerLoop { st with currentSpan := some { span with
              samples := (span.samples ++ gapPoints) ++ [row.sample] } } rest
        else
          readerLoop { st with currentSpan := some { span with
            samples := span.samples ++ [row.sample] } } rest

/-- Next from the reader: nothing after an error; otherwise start a new span
from the stashed sample if one exists, then consume rows. -/
def ReaderState.Next (st : ReaderState) : Bool × ReaderState :=
  if st.err.isSome then (false, st)
  else
    match st.nextSample with
    | some row =>
      let st₂ := { st with nextSample := none }
      match startSpan st₂ row.timestamp row.sample with
      | none => (false, { st₂ with err := some ReaderErr.badBinWidth })
      | some st₃ => readerLoop st₃ st₃.rows
    | none => readerLoop st st.rows

/-- Successive `Next` calls, collecting `Current()` after each call that
returns true.  The fuel bounds the number of calls; `rows.length + 2`
always suffices. -/
def collectSpans (fuel : Nat) (st : ReaderState) : List SpectralSpan :=
  match fuel with
  | 0 => []
  | Nat.succ fuel =>
    let r := st.Next
    if r.1 then
      match r.2.currentSpan with
      | some span => span :: collectSpans fuel r.2
      | none => []
    else []

/-- SQL `MIN(frequency)` over the session samples, used by `initFilters`
when no explicit minimum is configured. -/
def minFreqOf (rows : List SpectrumRow) : ℚ :=
  match rows.map (fun r => r.sample.frequency) with
  | [] => 0
  | f :: fs => fs.foldl (fun a b => if b < a then b else a) f

/-- SQL `MAX(frequency)` over the session samples, used by `initFilters`
when no explicit maximum is configured. -/
def maxFreqOf (rows : List SpectrumRow) : ℚ :=
  match rows.map (fun r => r.sample.frequency) with
  | [] => 0
  | f :: fs => fs.foldl (fun a b => if a < b then b else a) f

/-- A freshly initialized reader over the given ordered rows: explicit
frequency filters when present, otherwise the bounds are filled from the
data (`initFilters`). -/
def mkReader (rows : List SpectrumRow) (minF maxF : Option ℚ) : ReaderState :=
  { rows := rows, minFreq := minF.getD (minFreqOf rows),
    maxFreq := maxF.getD (maxFreqOf rows), numChunks := 0,
    currentSpan := none, nextSample := none, err := none }

/-- A persisted sample row at 1 MHz bin width. -/
def mkRow (ts : Int) (freq pw : ℚ) : SpectrumRow :=
  { timestamp := ts,
    sample := { frequency := freq, power := some pw, binWidth := 1000000,
                numSamples := 1 } }

/-- The C2 scenario: persisted center frequencies
[100e6, 200e6, 300e6, 100e6, 200e6] in timestamp-then-frequency order. -/
def c2Rows : List SpectrumRow :=
  [mkRow 0 100000000 (-10), mkRow 0 200000000 (-20), mkRow 0 300000000 (-30),
   mkRow 1000000 100000000 (-40), mkRow 1000000 200000000 (-50)]

/-- The spans the reader produces for the C2 scenario with no filters. -/
def c2Spans : List SpectralSpan := collectSpans 7 (mkReader c2Rows none none)

/-- Claim C2 counterexample: the reader does produce two spans, but their
sample counts are not [3, 2] — the gap filler inserts synthetic zero-power
points between the persisted samples and up to the effective maximum. -/
theorem c2_reader_counterexample :
    c2Spans.map (fun s => s.samples.length) ≠ [3, 2] := by decide

/-- Claim C2 (amended): successive Next() calls yield exactly two spans; the
first carries the 3 persisted samples of the first sweep plus 200
synthetic zero-power gap points (203 samples), the second the 2 persisted
samples of the second sweep plus 200 synthetic points (202 samples). -/
theorem c2_reader_spans_amended :
    c2Spans.length = 2 ∧
    c2Spans.map (fun s => s.samples.length) = [203, 202] ∧
    c2Spans.map
        (fun s => (s.samples.filter (fun p => decide (p.power ≠ some 0))).length)
      = [3, 2] ∧
    c2Spans.map (fun s => (s.frequencyStart, s.frequencyEnd))
      = [(100000000, 300000000), (100000000, 300000000)] := by
  refine ⟨by decide, by decide, by decide, by decide⟩

end Storage

namespace Storage

/-- The C3 scenario: one persisted sample at 300 MHz, 1 MHz bin width. -/
def c3Rows : List SpectrumRow := [mkRow 0 300000000 (-42)]

/-- The spans of the C3 reader, configured with minFreq 100 MHz and
maxFreq 500 MHz. -/
def c3Spans : List SpectralSpan :=
  collectSpans 3 (mkReader c3Rows (some 100000000) (some 500000000))

/-- Claim C3 counterexample: the single span contains two points at 300 MHz —
a synthetic zero-power point (the prepended gap fill includes its end
point) followed by the original sample — so it is not the case that every
point at 300 MHz carries the original power. -/
theorem c3_gap_fill_counterexample :
    c3Spans.map
        (fun s => (s.samples.filter
          (fun p => decide (p.frequency = 300000000))).map (fun p => p.power))
      = [[some 0, some (-42)]] ∧
    ¬ (∀ s ∈ c3Spans, ∀ p ∈ s.samples,
        p.frequency = 300000000 → p.power = some (-42)) := by
  refine ⟨by decide, by decide⟩

/-- Claim C3 (amended): the single span covers [100 MHz, 500 MHz] in 1 MHz
steps with 402 points: 201 synthetic zero-power points at 100..300 MHz
(the prepended gap fill includes its end point, duplicating 300 MHz), the
original sample at 300 MHz, then 200 synthetic points at 301..500 MHz; and
in general, for a gap [start, stop] with positive bin width, the number of
synthetic points is exactly ⌊(stop − start)/binWidth⌋ + 1 (the candidate
one step past the floor never exceeds stop, so the trailing trim never
removes it). -/
theorem c3_gap_fill_amended :
    (c3Spans.map (fun s => s.samples.map (fun p => p.frequency))
      = [((List.range 201).map (fun (i : ℕ) => (100000000 : ℚ) + i * 1000000))
          ++ [300000000]
          ++ ((List.range 200).map (fun (i : ℕ) => (301000000 : ℚ) + i * 1000000))]) ∧
    (c3Spans.map (fun s => s.samples.length) = [402]) ∧
    (c3Spans.map (fun s => s.samples.map (fun p => p.power))
      = [List.replicate 201 (some 0) ++ [some (-42)]
          ++ List.replicate 200 (some (0 : ℚ))]) ∧
    (∀ (start stop : ℚ) (t : SpectralPoint), 0 < t.binWidth → start ≤ stop →
      ∃ pts, fillFrequencyRange start stop t = some pts ∧
        (pts.length : Int) = ⌊(stop - start) / t.binWidth⌋ + 1) := by
  refine ⟨by decide, by decide, by decide, ?_⟩
  intro start stop t hbw hle
  unfold fillFrequencyRange
  rw [if_neg (not_le.mpr hbw)]
  have hq : (0 : ℚ) ≤ (stop - start) / t.binWidth :=
    div_nonneg (by linarith) (le_of_lt hbw)
  have hfl : (0 : Int) ≤ ⌊(stop - start) / t.binWidth⌋ := Int.floor_nonneg.mpr hq
  rw [if_neg (by omega)]
  refine ⟨_, rfl, ?_⟩
  have hall : ∀ f ∈ (List.range (⌊(stop - start) / t.binWidth⌋ + 1).toNat).map
      (fun (i : ℕ) => start + (i : ℚ) * t.binWidth), (decide (f ≤ stop)) = true := by
    intro f hf
    obtain ⟨i, hi, rfl⟩ := List.mem_map.mp hf
    have hi₁ : i < (⌊(stop - start) / t.binWidth⌋ + 1).toNat := List.mem_range.mp hi
    have hi₂ : (i : Int) ≤ ⌊(stop - start) / t.binWidth⌋ := by omega
    have hi₃ : (i : ℚ) ≤ (stop - start) / t.binWidth :=
      le_trans (by exact_mod_cast Int.cast_le.mpr hi₂) (Int.floor_le _)
    have hmul : (i : ℚ) * t.binWidth ≤ stop - start := by
      have := mul_le_mul_of_nonneg_right hi₃ (le_of_lt hbw)
      rwa [div_mul_cancel₀ _ (ne_of_gt hbw)] at this
    rw [decide_eq_true_eq]
    linarith
  rw [List.takeWhile_eq_self_iff.mpr hall]
  rw [List.length_map, List.length_map, List.length_range]
  omega

/-- Witness for the amended C3: the gap-count formula instantiated on the
concrete gap [100 MHz, 500 MHz] with a 1 MHz template. -/
theorem c3_gap_fill_amended_witness :
    ∃ pts, fillFrequencyRange 100000000 500000000
        { frequency := 300000000, power := some (-42), binWidth := 1000000,
          numSamples := 1 } = some pts ∧
      (pts.length : Int)
        = ⌊((500000000 : ℚ) - 100000000) / (1000000 : ℚ)⌋ + 1 :=
  c3_gap_fill_amended.2.2.2 100000000 500000000
    { frequency := 300000000, power := some (-42), binWidth := 1000000,
      numSamples := 1 } (by decide) (by decide)

end Storage
